import Mathlib

/-!
# slf_fpga: the SandyLinux FPGA character-device driver

A shallow embedding of `fpga/sys/slf_fpga.c` and `fpga/sys/slf_fpga.h`.

* 32-bit register and struct values are natural numbers (the driver does no
  arithmetic on them, only moves and compares them).
* Kernel pointers into I/O space are integers (the value of the pointer read as
  a signed long), so that the kernel's error-pointer range is `[-4095, -1]`.
* A pointer to a device instance is `Option (Fin SLF_FPGA_DEVICE_MAX)`:
  `none` is the null pointer, `some i` is `slf_instance_table + i`.
* Everything the driver can observe or change is collected in `World`; every
  side effect is also appended to `World.trace`, oldest event first.
* Dereferencing a null instance pointer is a kernel fault, rendered as `none`
  (or `Outcome.oops`).
-/

namespace SlfFpga

/-! ## Constants taken from the kernel headers -/

/-- Linux errno values used by the driver. -/
def ENODEV : Int := 19
def EFAULT : Int := 14
def ENOTTY : Int := 25
def ERESTART : Int := 85

/-- Largest errno that can be carried in an error pointer. -/
def MAX_ERRNO : Int := 4095

/-- The kernel's `IS_ERR`: the pointer lies in the last `MAX_ERRNO` addresses. -/
def IS_ERR (p : Int) : Bool := decide (-MAX_ERRNO ≤ p ∧ p < 0)

/-- The kernel's `PTR_ERR`: the pointer value read as a signed long. -/
def PTR_ERR (p : Int) : Int := p

/-- Result type of an interrupt handler. -/
inductive irqreturn_t where
  | IRQ_NONE
  | IRQ_HANDLED
  | IRQ_WAKE_THREAD
  deriving DecidableEq, Repr

/-- Scheduler state of a task. -/
inductive TaskState where
  | TASK_RUNNING
  | TASK_INTERRUPTIBLE
  deriving DecidableEq, Repr

/-- Direction bits of an ioctl command code (asm-generic encoding). -/
def _IOC_WRITE : Nat := 1
def _IOC_READ : Nat := 2

/-- The generic ioctl command encoding: direction, size, type and number. -/
def _IOC (dir type nr size : Nat) : Nat :=
  (dir <<< 30) ||| (type <<< 8) ||| (nr <<< 0) ||| (size <<< 16)

def _IOW (type nr size : Nat) : Nat := _IOC _IOC_WRITE type nr size
def _IOR (type nr size : Nat) : Nat := _IOC _IOC_READ type nr size
def _IOWR (type nr size : Nat) : Nat := _IOC (_IOC_READ ||| _IOC_WRITE) type nr size

/-! ## slf_fpga.h: the user-mode interface -/

structure slf_fpga_leds_s where
  led_value : Nat
  deriving DecidableEq, Repr

structure slf_fpga_UserIn_s where
  user_in_value : Nat
  deriving DecidableEq, Repr

structure slf_fpga_wait_s where
  user_in_value : Nat
  user_in_exp : Nat
  timeout_ms : Nat
  deriving DecidableEq, Repr

/-- The byte sizes of the three argument structs (one, one and three words). -/
def sizeof_slf_fpga_leds_s : Nat := 4
def sizeof_slf_fpga_UserIn_s : Nat := 4
def sizeof_slf_fpga_wait_s : Nat := 12

/-- The character F, the ioctl type of this driver. -/
def ioc_type_F : Nat := 0x46

def SLF_FPGA_LEDS : Nat := _IOW ioc_type_F 0x10 sizeof_slf_fpga_leds_s
def SLF_FPGA_UserIn : Nat := _IOR ioc_type_F 0x11 sizeof_slf_fpga_UserIn_s
def SLF_FPGA_WAIT : Nat := _IOWR ioc_type_F 0x12 sizeof_slf_fpga_wait_s

/-! ## slf_fpga.c: register map and instance table -/

inductive slf_fpga_addr_t where
  | ADDR_BUILD_ID
  | ADDR_LEDs
  | ADDR_UserIn
  | ADDR_UserInExp
  | ADDR_UserInIEN
  deriving DecidableEq, Repr

/-- The numeric value of each register offset. -/
def slf_fpga_addr_t.val : slf_fpga_addr_t → Int
  | .ADDR_BUILD_ID => 0x00
  | .ADDR_LEDs => 0x04
  | .ADDR_UserIn => 0x08
  | .ADDR_UserInExp => 0x0c
  | .ADDR_UserInIEN => 0x10

def SLF_FPGA_DEVICE_MAX : Nat := 1

/-- The instance state of a device: the mapped register base (0 when unbound)
and the wait queue, a list of the tasks whose wait entries are registered. -/
structure slf_fpga_instance where
  base : Int
  userin_sync : List Nat
  deriving DecidableEq, Repr

/-- A pointer to an entry of the instance table, or null. -/
abbrev InstancePtr := Option (Fin SLF_FPGA_DEVICE_MAX)

/-- Messages the driver logs with printk. -/
inductive LogMsg where
  | one_instance_only
  | no_memory_resource
  | memory_at
  | no_irq_resource
  | irq_at
  | irq_request_failed
  | build_id (id : Nat)
  deriving DecidableEq, Repr

/-- The side effects the driver performs, as recorded in the trace. -/
inductive Event where
  | ioread32 (addr : Int) (val : Nat)
  | iowrite32 (val : Nat) (addr : Int)
  | copy_from_user (src : Nat) (size : Nat)
  | copy_to_user (dst : Nat) (size : Nat)
  | init_waitqueue_head
  | add_wait_queue (task : Nat)
  | remove_wait_queue (task : Nat)
  | set_current_state (st : TaskState)
  | schedule
  | wake_up_interruptible (waiters : List Nat)
  | devm_ioremap_resource (start : Nat) (result : Int)
  | devm_request_irq (irq : Nat) (rc : Int)
  | printk (msg : LogMsg)
  deriving DecidableEq, Repr

/-- The memory of the calling process, in 32-bit words keyed by address, with
the access rights that decide whether a copy from or to it faults. -/
structure UserMem where
  word : Nat → Nat
  readable : Nat → Bool
  writable : Nat → Bool

/-- Everything the driver reads or changes. -/
structure World where
  iomem : Int → Nat
  slf_instance_table : Fin SLF_FPGA_DEVICE_MAX → slf_fpga_instance
  user : UserMem
  trace : List Event

/-- Append an event to the trace. -/
def World.log (w : World) (e : Event) : World :=
  { w with trace := w.trace ++ [e] }

/-- The initial instance table of the module: one entry with a null base. -/
def slf_instance_table_init : Fin SLF_FPGA_DEVICE_MAX → slf_fpga_instance :=
  fun _ => { base := 0, userin_sync := [] }

def select_device (minor : Int) : InstancePtr :=
  if minor < 0 then none
  else if h : minor.toNat < SLF_FPGA_DEVICE_MAX then some ⟨minor.toNat, h⟩
  else none

/-- The per-open state: the private data of a struct file. -/
structure file where
  private_data : InstancePtr
  deriving DecidableEq, Repr

/-- An inode of a device node: its device number. -/
structure inode where
  i_rdev : Nat
  deriving DecidableEq, Repr

/-- The kernel's `MINOR`: the low 20 bits of a device number. -/
def MINOR (dev : Nat) : Nat := dev % 2 ^ 20

def file_set_private_data (_filp : file) (xsp : InstancePtr) : file :=
  { private_data := xsp }

def file_get_private_data (filp : file) : InstancePtr :=
  filp.private_data

def slf_fpga_read32 (xsp : Fin SLF_FPGA_DEVICE_MAX) (offset : slf_fpga_addr_t)
    (w : World) : Nat × World :=
  let addr := (w.slf_instance_table xsp).base + offset.val
  let v := w.iomem addr
  (v, w.log (.ioread32 addr v))

def slf_fpga_write32 (xsp : Fin SLF_FPGA_DEVICE_MAX) (offset : slf_fpga_addr_t)
    (val : Nat) (w : World) : World :=
  let addr := (w.slf_instance_table xsp).base + offset.val
  ({ w with iomem := Function.update w.iomem addr val }).log (.iowrite32 val addr)

/-! ## Kernel services the driver calls -/

/-- Copy words from user memory; the result is the number of bytes that could
not be copied (0 on success) and the words read. -/
def copy_from_user (um : UserMem) (src : Nat) : Nat → Nat × List Nat
  | 0 => (0, [])
  | n + 1 =>
    if um.readable src then
      ((copy_from_user um (src + 4) n).1, um.word src :: (copy_from_user um (src + 4) n).2)
    else (4 * (n + 1), List.replicate (n + 1) 0)

/-- Copy words to user memory, stopping at the first word that cannot be
written; the result is the number of bytes not copied and the new memory. -/
def copy_to_user (um : UserMem) (dst : Nat) : List Nat → Nat × UserMem
  | [] => (0, um)
  | v :: vs =>
    if um.writable dst then
      copy_to_user { um with word := Function.update um.word dst v } (dst + 4) vs
    else (4 * (vs.length + 1), um)

def add_wait_queue (xsp : Fin SLF_FPGA_DEVICE_MAX) (task : Nat) (w : World) : World :=
  let inst := w.slf_instance_table xsp
  let table := Function.update w.slf_instance_table xsp { inst with userin_sync := task :: inst.userin_sync }
  ({ w with slf_instance_table := table }).log (.add_wait_queue task)

def remove_wait_queue (xsp : Fin SLF_FPGA_DEVICE_MAX) (task : Nat) (w : World) : World :=
  let inst := w.slf_instance_table xsp
  let table := Function.update w.slf_instance_table xsp { inst with userin_sync := inst.userin_sync.erase task }
  ({ w with slf_instance_table := table }).log (.remove_wait_queue task)

def init_waitqueue_head (xsp : Fin SLF_FPGA_DEVICE_MAX) (w : World) : World :=
  let inst := w.slf_instance_table xsp
  let table := Function.update w.slf_instance_table xsp { inst with userin_sync := [] }
  ({ w with slf_instance_table := table }).log .init_waitqueue_head

def wake_up_interruptible (xsp : Fin SLF_FPGA_DEVICE_MAX) (w : World) : World :=
  w.log (.wake_up_interruptible (w.slf_instance_table xsp).userin_sync)

/-- Struct layout: the words of each argument struct in memory order. -/
def slf_fpga_leds_s.ofWords : List Nat → slf_fpga_leds_s
  | a :: _ => ⟨a⟩
  | [] => ⟨0⟩

def slf_fpga_UserIn_s.toWords (s : slf_fpga_UserIn_s) : List Nat := [s.user_in_value]

def slf_fpga_wait_s.ofWords : List Nat → slf_fpga_wait_s
  | a :: b :: c :: _ => ⟨a, b, c⟩
  | _ => ⟨0, 0, 0⟩

def slf_fpga_wait_s.toWords (s : slf_fpga_wait_s) : List Nat :=
  [s.user_in_value, s.user_in_exp, s.timeout_ms]

/-- The caller's Wait Request as it stands in user memory at raw. -/
def user_wait_s (um : UserMem) (raw : Nat) : slf_fpga_wait_s :=
  ⟨um.word raw, um.word (raw + 4), um.word (raw + 8)⟩

/-! ## The file operations -/

/-- The open operation. The instance table of the world is in scope, as it is
in the source, and is not read: only the pointer into it is computed. -/
def slf_fpga_open (_w : World) (ino : inode) (filp : file) : Int × file :=
  let xsp := select_device (MINOR ino.i_rdev)
  if xsp = none then (-ENODEV, filp)
  else (0, file_set_private_data filp xsp)

def slf_fpga_release (w : World) (filp : file) : Option (Int × World × file) :=
  match file_get_private_data filp with
  | none => none
  | some xsp =>
    let w := slf_fpga_write32 xsp .ADDR_UserInIEN 0x00 w
    some (0, w, file_set_private_data filp none)

/-- What a call into the driver has come to: it returned, it is still
suspended in the wait loop, or it dereferenced a null instance pointer. -/
inductive Outcome where
  | returned (rc : Int) (w : World)
  | blocked (w : World)
  | oops

def slf_fpga_leds_ioctl (xsp : InstancePtr) (raw : Nat) (w : World) : Outcome :=
  let r := copy_from_user w.user raw 1
  let w := w.log (.copy_from_user raw sizeof_slf_fpga_leds_s)
  if r.1 ≠ 0 then .returned (-EFAULT) w
  else
    let arg := slf_fpga_leds_s.ofWords r.2
    match xsp with
    | none => .oops
    | some i => .returned 0 (slf_fpga_write32 i .ADDR_LEDs arg.led_value w)

def slf_fpga_userin_ioctl (xsp : InstancePtr) (raw : Nat) (w : World) : Outcome :=
  match xsp with
  | none => .oops
  | some i =>
    let r := slf_fpga_read32 i .ADDR_UserIn w
    let arg : slf_fpga_UserIn_s := ⟨r.1⟩
    let c := copy_to_user r.2.user raw arg.toWords
    let w := ({ r.2 with user := c.2 }).log (.copy_to_user raw sizeof_slf_fpga_UserIn_s)
    if c.1 ≠ 0 then .returned (-EFAULT) w
    else .returned 0 w

/-- What the environment shows one iteration of the wait loop: the value the
input pins present at UserIn when it is read, and whether a signal is pending
for the calling task when that is asked. -/
structure Obs where
  user_in : Nat
  signal_pending : Bool
  deriving DecidableEq, Repr

/-- The input pins drive the live UserIn register of the instance. -/
def drive_UserIn (xsp : Fin SLF_FPGA_DEVICE_MAX) (v : Nat) (w : World) : World :=
  let addr := (w.slf_instance_table xsp).base + slf_fpga_addr_t.ADDR_UserIn.val
  { w with iomem := Function.update w.iomem addr v }

/-- The wait loop of slf_fpga_wait_ioctl, one iteration per observation.
The result is `some (rc, arg)` when the loop was left by a break, and `none`
when every observation was used up and the task is still suspended. -/
def wait_loop (xsp : Fin SLF_FPGA_DEVICE_MAX) :
    List Obs → slf_fpga_wait_s → World → Option (Int × slf_fpga_wait_s) × World
  | [], _, w => (none, w)
  | o :: rest, arg, w =>
    let w := w.log (.set_current_state .TASK_INTERRUPTIBLE)
    let r := slf_fpga_read32 xsp .ADDR_UserIn (drive_UserIn xsp o.user_in w)
    let arg := { arg with user_in_value := r.1 }
    if arg.user_in_value ≠ arg.user_in_exp then (some (0, arg), r.2)
    else if o.signal_pending then (some (-ERESTART, arg), r.2)
    else wait_loop xsp rest arg (r.2.log .schedule)

def slf_fpga_wait_ioctl (current : Nat) (xsp : InstancePtr) (raw : Nat)
    (obs : List Obs) (w : World) : Outcome :=
  let r := copy_from_user w.user raw 3
  let w := w.log (.copy_from_user raw sizeof_slf_fpga_wait_s)
  if r.1 ≠ 0 then .returned (-EFAULT) w
  else
    let arg := slf_fpga_wait_s.ofWords r.2
    match xsp with
    | none => .oops
    | some i =>
      let w := slf_fpga_write32 i .ADDR_UserInIEN 0xff w
      let w := add_wait_queue i current w
      match wait_loop i obs arg w with
      | (none, w) => .blocked w
      | (some (rc, arg), w) =>
        let w := w.log (.set_current_state .TASK_RUNNING)
        let w := remove_wait_queue i current w
        if rc < 0 then .returned rc w
        else
          let c := copy_to_user w.user raw arg.toWords
          let w := ({ w with user := c.2 }).log (.copy_to_user raw sizeof_slf_fpga_wait_s)
          if c.1 ≠ 0 then .returned (-EFAULT) w
          else .returned 0 w

def slf_fpga_ioctl (current : Nat) (filp : file) (cmd : Nat) (raw : Nat)
    (obs : List Obs) (w : World) : Outcome :=
  let xsp := file_get_private_data filp
  if cmd = SLF_FPGA_LEDS then slf_fpga_leds_ioctl xsp raw w
  else if cmd = SLF_FPGA_UserIn then slf_fpga_userin_ioctl xsp raw w
  else if cmd = SLF_FPGA_WAIT then slf_fpga_wait_ioctl current xsp raw obs w
  else .returned (-ENOTTY) w

def slf_fpga_isr (_irq : Int) (dev_id : InstancePtr) (w : World) :
    Option (irqreturn_t × World) :=
  match dev_id with
  | none => none
  | some xsp =>
    let r := slf_fpga_read32 xsp .ADDR_UserIn w
    let user_in := r.1
    let w := slf_fpga_write32 xsp .ADDR_UserInExp user_in r.2
    let w := wake_up_interruptible xsp w
    some (.IRQ_HANDLED, w)

/-! ## Binding to the platform device -/

/-- A resource of a platform device; only its start is used. -/
structure resource where
  start : Nat
  deriving DecidableEq, Repr

/-- A platform device: its memory and interrupt resources (absent ones are
null) and the driver data bound to it. -/
structure platform_device where
  mem_resource : Option resource
  irq_resource : Option resource
  drvdata : InstancePtr
  deriving DecidableEq, Repr

/-- What the platform answers when the driver maps a register region (a
pointer, possibly an error pointer) and when it requests an interrupt line
(0 or a negative errno). -/
structure Platform where
  devm_ioremap_resource : resource → Int
  devm_request_irq : Nat → Int

def platform_set_drvdata (dev : platform_device) (xsp : InstancePtr) : platform_device :=
  { dev with drvdata := xsp }

def platform_get_drvdata (dev : platform_device) : InstancePtr :=
  dev.drvdata

/-- The assignment to the base field of an instance. -/
def set_base (xsp : Fin SLF_FPGA_DEVICE_MAX) (base : Int) (w : World) : World :=
  let inst := w.slf_instance_table xsp
  { w with slf_instance_table := Function.update w.slf_instance_table xsp { inst with base := base } }

/-- The pointer value slf_instance_table itself: entry 0 of the table. -/
def slf_instance_table_ptr : Fin SLF_FPGA_DEVICE_MAX := ⟨0, by decide⟩

def slf_fpga_probe (pf : Platform) (dev : platform_device) (w : World) :
    Int × platform_device × World :=
  let xsp : Fin SLF_FPGA_DEVICE_MAX := slf_instance_table_ptr
  if (w.slf_instance_table xsp).base ≠ 0 then
    (-ENODEV, dev, w.log (.printk .one_instance_only))
  else
    let w := init_waitqueue_head xsp w
    match dev.mem_resource with
    | none =>
      let w := w.log (.printk .no_memory_resource)
      let w := set_base xsp 0 w
      (-ENODEV, dev, w)
    | some res =>
      let w := w.log (.printk .memory_at)
      let p := pf.devm_ioremap_resource res
      let w := set_base xsp p (w.log (.devm_ioremap_resource res.start p))
      if IS_ERR (w.slf_instance_table xsp).base then
        let rc := PTR_ERR (w.slf_instance_table xsp).base
        let w := set_base xsp 0 w
        (rc, dev, w)
      else
        let w := slf_fpga_write32 xsp .ADDR_UserInIEN 0x00000000 w
        let w :=
          match dev.irq_resource with
          | none => w.log (.printk .no_irq_resource)
          | some res =>
            let w := w.log (.printk .irq_at)
            let use_irq := res.start
            let rc := pf.devm_request_irq use_irq
            let w := w.log (.devm_request_irq use_irq rc)
            if rc < 0 then w.log (.printk .irq_request_failed) else w
        let dev := platform_set_drvdata dev (some xsp)
        let r := slf_fpga_read32 xsp .ADDR_BUILD_ID w
        let w := r.2.log (.printk (.build_id r.1))
        (0, dev, w)

def slf_fpga_remove (dev : platform_device) (w : World) : Int × World :=
  match platform_get_drvdata dev with
  | some xsp =>
    let w := slf_fpga_write32 xsp .ADDR_UserInIEN 0x00000000 w
    let w := set_base xsp 0 w
    (0, w)
  | none => (0, w)

/-! ## Observers and sample data -/

/-- The world an outcome ends in; the fallback stands in when there is none. -/
def Outcome.finalWorld : Outcome → World → World
  | .returned _ w, _ => w
  | .blocked w, _ => w
  | .oops, fallback => fallback

/-- The result code of a call that returned. -/
def Outcome.rc? : Outcome → Option Int
  | .returned rc _ => some rc
  | _ => none

/-- Whether the call is still suspended in the wait loop. -/
def Outcome.isBlocked : Outcome → Bool
  | .blocked _ => true
  | _ => false

/-- Two worlds that differ at most in the memory of the calling process. -/
def same_but_user (w1 w2 : World) : Prop :=
  w1.iomem = w2.iomem ∧ w1.slf_instance_table = w2.slf_instance_table ∧ w1.trace = w2.trace

/-- The register writes of a trace, as (address, value) pairs in order. -/
def iowrites (t : List Event) : List (Int × Nat) :=
  t.filterMap fun e =>
    match e with
    | .iowrite32 val addr => some (addr, val)
    | _ => none

/-- The register reads of a trace, as (address, value) pairs in order. -/
def ioreads (t : List Event) : List (Int × Nat) :=
  t.filterMap fun e =>
    match e with
    | .ioread32 addr val => some (addr, val)
    | _ => none

/-- The address and value of the most recent register read in a trace. -/
def last_ioread32 (t : List Event) : Option (Int × Nat) :=
  (ioreads t).getLast?

/-- The address of a register of an instance, as the accessors compute it. -/
def reg_addr (w : World) (xsp : Fin SLF_FPGA_DEVICE_MAX) (offset : slf_fpga_addr_t) : Int :=
  (w.slf_instance_table xsp).base + offset.val

/-- The world at the entry of the wait loop of slf_fpga_wait_ioctl: the request
has been copied in, UserInIEN has been set and the wait entry is registered. -/
def wait_armed (current : Nat) (xsp : Fin SLF_FPGA_DEVICE_MAX) (raw : Nat) (w : World) : World :=
  add_wait_queue xsp current (slf_fpga_write32 xsp .ADDR_UserInIEN 0xff
    (w.log (.copy_from_user raw sizeof_slf_fpga_wait_s)))

/-- No observation of the list ends the wait: each read shows the expected
value and no signal is pending. -/
def quiet (exp : Nat) (obs : List Obs) : Prop :=
  ∀ q ∈ obs, q.user_in = exp ∧ q.signal_pending = false

/-- The events of a run of quiet iterations of the wait loop, reading UserIn
at the given address: each iteration reads and then calls schedule. -/
def quiet_trace (addr : Int) : List Obs → List Event
  | [] => []
  | o :: rest =>
    [.set_current_state .TASK_INTERRUPTIBLE, .ioread32 addr o.user_in, .schedule] ++
      quiet_trace addr rest

/-- The module just loaded: no device bound, no events yet, and a caller whose
memory is all zero and fully accessible. -/
def boot_world : World :=
  { iomem := fun _ => 0
    slf_instance_table := slf_instance_table_init
    user := { word := fun _ => 0, readable := fun _ => true, writable := fun _ => true }
    trace := [] }

/-- A platform on which mapping yields base 0x40000000 and interrupt requests
succeed. -/
def demo_platform : Platform :=
  { devm_ioremap_resource := fun _ => 0x40000000
    devm_request_irq := fun _ => 0 }

/-- A device with a register region and an interrupt line. -/
def demo_device : platform_device :=
  { mem_resource := some ⟨0x40000000⟩, irq_resource := some ⟨61⟩, drvdata := none }

/-- The world after the demo device has been probed. -/
def bound_world : World := (slf_fpga_probe demo_platform demo_device boot_world).2.2

/-- The demo device after the probe: its driver data points at the instance. -/
def bound_device : platform_device := (slf_fpga_probe demo_platform demo_device boot_world).2.1

/-- The world after the bound device has been removed again. -/
def removed_world : World := (slf_fpga_remove bound_device bound_world).2

/-- A platform on which mapping succeeds and the interrupt request is refused
with -EBUSY. -/
def irq_refusing_platform : Platform :=
  { devm_ioremap_resource := fun _ => 0x40000000
    devm_request_irq := fun _ => -16 }

/-- A platform on which mapping the register region fails with -ENOMEM. -/
def map_failing_platform : Platform :=
  { devm_ioremap_resource := fun _ => -12
    devm_request_irq := fun _ => 0 }

/-- A caller memory whose request at 0x1000 carries the incoming value 99, the
expected value 0 and the timeout of 500 ms that watch_buttons passes. -/
def demo_user_timeout : UserMem :=
  { word := fun a => if a = 0x1008 then 500 else if a = 0x1000 then 99 else 0
    readable := fun _ => true
    writable := fun _ => true }

/-- A wait on the bound device by task 7 with its request at 0x1000 (expected
value 0): the first read shows 0, the second shows 0x10. -/
def demo_wait : Outcome :=
  slf_fpga_wait_ioctl 7 (some slf_instance_table_ptr) 0x1000 [⟨0, false⟩, ⟨0x10, false⟩] bound_world

/-- The same wait after its first, quiet observation only: still suspended. -/
def demo_wait_suspended : Outcome :=
  slf_fpga_wait_ioctl 7 (some slf_instance_table_ptr) 0x1000 [⟨0, false⟩] bound_world

/-- The bound device with a caller none of whose memory can be read. -/
def unreadable_world : World :=
  { bound_world with
    user := { word := fun _ => 0, readable := fun _ => false, writable := fun _ => true } }

/-! ## Helper lemmas: registers -/

theorem addr_val_injective (r s : slf_fpga_addr_t) (h : r.val = s.val) : r = s := by
  cases r <;> cases s <;> simp [slf_fpga_addr_t.val] at h ⊢

/-! ## Helper lemmas: user copies -/

theorem copy_from_user_wait_s (um : UserMem) (raw : Nat)
    (h : (copy_from_user um raw 3).1 = 0) :
    slf_fpga_wait_s.ofWords (copy_from_user um raw 3).2 = user_wait_s um raw := by
  simp only [copy_from_user] at h ⊢
  by_cases h0 : um.readable raw = true
  · by_cases h1 : um.readable (raw + 4) = true
    · by_cases h2 : um.readable (raw + 4 + 4) = true
      · simp [h0, h1, h2, slf_fpga_wait_s.ofWords, user_wait_s]
      · simp [h0, h1, h2] at h
    · simp [h0, h1] at h
  · simp [h0] at h

theorem copy_from_user_fst_congr (u1 u2 : UserMem) (h : u1.readable = u2.readable) (n : Nat) :
    ∀ src, (copy_from_user u1 src n).1 = (copy_from_user u2 src n).1 := by
  induction n with
  | zero => intro src; rfl
  | succ n ih =>
    intro src
    simp only [copy_from_user, h]
    split
    · exact ih _
    · rfl

theorem copy_to_user_fst_congr (l1 : List Nat) :
    ∀ (l2 : List Nat) (u1 u2 : UserMem) (dst : Nat), u1.writable = u2.writable →
      l1.length = l2.length → (copy_to_user u1 dst l1).1 = (copy_to_user u2 dst l2).1 := by
  induction l1 with
  | nil =>
    intro l2 u1 u2 dst _ hlen
    cases l2 with
    | nil => rfl
    | cons b l2 => simp at hlen
  | cons a l1 ih =>
    intro l2 u1 u2 dst h hlen
    cases l2 with
    | nil => simp at hlen
    | cons b l2 =>
      simp only [List.length_cons, add_left_inj] at hlen
      simp only [copy_to_user, h]
      split
      · exact ih l2 _ _ _ rfl hlen
      · simp [hlen]

theorem copy_to_user_wait_s (um : UserMem) (raw a b c : Nat)
    (h : (copy_to_user um raw [a, b, c]).1 = 0) :
    user_wait_s (copy_to_user um raw [a, b, c]).2 raw = ⟨a, b, c⟩ := by
  simp only [copy_to_user] at h ⊢
  by_cases h0 : um.writable raw = true
  · by_cases h1 : um.writable (raw + 4) = true
    · by_cases h2 : um.writable (raw + 4 + 4) = true
      · simp [h0, h1, h2, user_wait_s, Function.update]
        intro hh
        omega
      · simp [h0, h1, h2] at h
    · simp [h0, h1] at h
  · simp [h0] at h

/-! ## Helper lemmas: traces -/

theorem ioreads_append (a b : List Event) : ioreads (a ++ b) = ioreads a ++ ioreads b := by
  simp [ioreads]

theorem iowrites_append (a b : List Event) : iowrites (a ++ b) = iowrites a ++ iowrites b := by
  simp [iowrites]

theorem last_ioread32_append_some (a b : List Event) (x : Int × Nat)
    (h : last_ioread32 b = some x) : last_ioread32 (a ++ b) = some x := by
  simp only [last_ioread32] at h ⊢
  rw [ioreads_append, List.getLast?_append, h]
  rfl

theorem last_ioread32_append_noread (a b : List Event) (h : ioreads b = []) :
    last_ioread32 (a ++ b) = last_ioread32 a := by
  simp only [last_ioread32]
  rw [ioreads_append, h, List.append_nil]

/-! ## Helper lemmas: the wait loop -/

theorem read32_drive_UserIn (xsp : Fin SLF_FPGA_DEVICE_MAX) (v : Nat) (w : World) :
    slf_fpga_read32 xsp .ADDR_UserIn (drive_UserIn xsp v w) =
      (v, (drive_UserIn xsp v w).log (.ioread32 (reg_addr w xsp .ADDR_UserIn) v)) := by
  simp [slf_fpga_read32, drive_UserIn, reg_addr]

theorem wait_loop_user (xsp : Fin SLF_FPGA_DEVICE_MAX) (obs : List Obs) :
    ∀ (arg : slf_fpga_wait_s) (w : World), (wait_loop xsp obs arg w).2.user = w.user := by
  induction obs with
  | nil => intro arg w; rfl
  | cons o rest ih =>
    intro arg w
    simp only [wait_loop]
    split
    · rfl
    · split
      · rfl
      · rw [ih]; rfl

theorem wait_loop_table (xsp : Fin SLF_FPGA_DEVICE_MAX) (obs : List Obs) :
    ∀ (arg : slf_fpga_wait_s) (w : World),
      (wait_loop xsp obs arg w).2.slf_instance_table = w.slf_instance_table := by
  induction obs with
  | nil => intro arg w; rfl
  | cons o rest ih =>
    intro arg w
    simp only [wait_loop]
    split
    · rfl
    · split
      · rfl
      · rw [ih]; rfl

theorem wait_loop_exit (xsp : Fin SLF_FPGA_DEVICE_MAX) (obs : List Obs) :
    ∀ (arg : slf_fpga_wait_s) (w : World) (rc : Int) (arg2 : slf_fpga_wait_s),
      (wait_loop xsp obs arg w).1 = some (rc, arg2) →
      arg2.user_in_exp = arg.user_in_exp ∧ arg2.timeout_ms = arg.timeout_ms ∧
      ((rc = 0 ∧ arg2.user_in_value ≠ arg.user_in_exp) ∨
        (rc = -ERESTART ∧ arg2.user_in_value = arg.user_in_exp)) ∧
      ∃ evs, (wait_loop xsp obs arg w).2.trace = w.trace ++ evs ∧
        last_ioread32 evs = some (reg_addr w xsp .ADDR_UserIn, arg2.user_in_value) := by
  induction obs with
  | nil => intro arg w rc arg2 h; simp [wait_loop] at h
  | cons o rest ih =>
    intro arg w rc arg2 h
    simp only [wait_loop, read32_drive_UserIn] at h ⊢
    split at h
    · rename_i hne
      simp only [Option.some.injEq, Prod.mk.injEq] at h
      obtain ⟨h1, h2⟩ := h
      subst h1 h2
      rw [if_pos hne]
      refine ⟨rfl, rfl, Or.inl ⟨rfl, hne⟩, ?_⟩
      refine ⟨[.set_current_state .TASK_INTERRUPTIBLE,
        .ioread32 (reg_addr w xsp .ADDR_UserIn) o.user_in], ?_, ?_⟩
      · simp [drive_UserIn, World.log, reg_addr]
      · simp [last_ioread32, ioreads]
    · rename_i heq
      split at h
      · rename_i hsig
        simp only [Option.some.injEq, Prod.mk.injEq] at h
        obtain ⟨h1, h2⟩ := h
        subst h1 h2
        rw [if_neg heq, if_pos hsig]
        refine ⟨rfl, rfl, Or.inr ⟨rfl, by simpa using heq⟩, ?_⟩
        refine ⟨[.set_current_state .TASK_INTERRUPTIBLE,
          .ioread32 (reg_addr w xsp .ADDR_UserIn) o.user_in], ?_, ?_⟩
        · simp [drive_UserIn, World.log, reg_addr]
        · simp [last_ioread32, ioreads]
      · rename_i hsig
        rw [if_neg heq, if_neg hsig]
        obtain ⟨e1, e2, e3, evs, e4, e5⟩ := ih _ _ rc arg2 h
        refine ⟨e1, e2, e3, ?_⟩
        refine ⟨[.set_current_state .TASK_INTERRUPTIBLE,
          .ioread32 (reg_addr w xsp .ADDR_UserIn) o.user_in, .schedule] ++ evs, ?_, ?_⟩
        · rw [e4]
          simp [drive_UserIn, World.log, reg_addr]
        · apply last_ioread32_append_some
          rw [e5]
          simp [drive_UserIn, World.log, reg_addr]

theorem wait_loop_exit_obs (xsp : Fin SLF_FPGA_DEVICE_MAX) (obs : List Obs) :
    ∀ (arg : slf_fpga_wait_s) (w : World) (rc : Int) (arg2 : slf_fpga_wait_s),
      (wait_loop xsp obs arg w).1 = some (rc, arg2) →
      ∃ pre o post, obs = pre ++ o :: post ∧
        (∀ q ∈ pre, q.user_in = arg.user_in_exp ∧ q.signal_pending = false) ∧
        arg2.user_in_value = o.user_in ∧
        ((rc = 0 ∧ o.user_in ≠ arg.user_in_exp) ∨
          (rc = -ERESTART ∧ o.user_in = arg.user_in_exp ∧ o.signal_pending = true)) := by
  induction obs with
  | nil => intro arg w rc arg2 h; simp [wait_loop] at h
  | cons o rest ih =>
    intro arg w rc arg2 h
    simp only [wait_loop, read32_drive_UserIn] at h
    split at h
    · rename_i hne
      simp only [Option.some.injEq, Prod.mk.injEq] at h
      obtain ⟨h1, h2⟩ := h
      subst h1 h2
      exact ⟨[], o, rest, rfl, by simp, rfl, Or.inl ⟨rfl, hne⟩⟩
    · rename_i heq
      have heq2 : o.user_in = arg.user_in_exp := by simpa using heq
      split at h
      · rename_i hsig
        simp only [Option.some.injEq, Prod.mk.injEq] at h
        obtain ⟨h1, h2⟩ := h
        subst h1 h2
        exact ⟨[], o, rest, rfl, by simp, rfl, Or.inr ⟨rfl, heq2, hsig⟩⟩
      · rename_i hsig
        obtain ⟨pre, o2, post, e1, e2, e3, e4⟩ := ih _ _ rc arg2 h
        refine ⟨o :: pre, o2, post, by simp [e1], ?_, e3, e4⟩
        intro q hq
        rcases List.mem_cons.mp hq with hq | hq
        · subst hq
          exact ⟨heq2, by simpa using hsig⟩
        · exact e2 q hq

theorem wait_loop_quiet (xsp : Fin SLF_FPGA_DEVICE_MAX) (obs : List Obs) :
    ∀ (arg : slf_fpga_wait_s) (w : World), quiet arg.user_in_exp obs →
      (wait_loop xsp obs arg w).1 = none := by
  induction obs with
  | nil => intro arg w _; rfl
  | cons o rest ih =>
    intro arg w hq
    have ho := hq o (List.mem_cons_self o rest)
    simp only [wait_loop, read32_drive_UserIn]
    rw [if_neg (by simp [ho.1]), if_neg (by simp [ho.2])]
    apply ih
    intro q hq2
    exact hq q (List.mem_cons_of_mem o hq2)

theorem wait_loop_interrupted (xsp : Fin SLF_FPGA_DEVICE_MAX) (o : Obs) (post : List Obs)
    (hsig : o.signal_pending = true) (pre : List Obs) :
    ∀ (arg : slf_fpga_wait_s) (w : World), quiet arg.user_in_exp pre →
      o.user_in = arg.user_in_exp →
      (wait_loop xsp (pre ++ o :: post) arg w).1 =
        some (-ERESTART, { arg with user_in_value := arg.user_in_exp }) := by
  induction pre with
  | nil =>
    intro arg w _ ho
    simp only [List.nil_append, wait_loop, read32_drive_UserIn]
    rw [if_neg (by simp [ho]), if_pos hsig, ho]
  | cons p rest ih =>
    intro arg w hq ho
    have hp := hq p (List.mem_cons_self p rest)
    simp only [List.cons_append, wait_loop, read32_drive_UserIn, List.append_eq]
    rw [if_neg (by simp [hp.1]), if_neg (by simp [hp.2])]
    exact ih ⟨p.user_in, arg.user_in_exp, arg.timeout_ms⟩ _
      (fun q hq2 => hq q (List.mem_cons_of_mem p hq2)) ho

theorem wait_loop_quiet_trace (xsp : Fin SLF_FPGA_DEVICE_MAX) (obs : List Obs) :
    ∀ (arg : slf_fpga_wait_s) (w : World), quiet arg.user_in_exp obs →
      (wait_loop xsp obs arg w).2.trace =
        w.trace ++ quiet_trace (reg_addr w xsp .ADDR_UserIn) obs := by
  induction obs with
  | nil => intro arg w _; simp [wait_loop, quiet_trace]
  | cons o rest ih =>
    intro arg w hq
    have ho := hq o (List.mem_cons_self o rest)
    simp only [wait_loop, read32_drive_UserIn]
    rw [if_neg (by simp [ho.1]), if_neg (by simp [ho.2])]
    rw [ih ⟨o.user_in, arg.user_in_exp, arg.timeout_ms⟩ _
      (fun q hq2 => hq q (List.mem_cons_of_mem o hq2))]
    simp [quiet_trace, drive_UserIn, World.log, reg_addr]

theorem wait_loop_congr (xsp : Fin SLF_FPGA_DEVICE_MAX) (obs : List Obs) :
    ∀ (a1 a2 : slf_fpga_wait_s) (w1 w2 : World), a1.user_in_exp = a2.user_in_exp →
      same_but_user w1 w2 →
      same_but_user (wait_loop xsp obs a1 w1).2 (wait_loop xsp obs a2 w2).2 ∧
      (wait_loop xsp obs a1 w1).1.map (fun p => (p.1, p.2.user_in_value)) =
        (wait_loop xsp obs a2 w2).1.map (fun p => (p.1, p.2.user_in_value)) := by
  induction obs with
  | nil => intro a1 a2 w1 w2 _ hw; exact ⟨hw, rfl⟩
  | cons o rest ih =>
    intro a1 a2 w1 w2 ha hw
    obtain ⟨h1, h2, h3⟩ := hw
    simp only [wait_loop, read32_drive_UserIn, ha]
    split
    · exact ⟨by simp [same_but_user, drive_UserIn, World.log, reg_addr, h1, h2, h3], rfl⟩
    · split
      · exact ⟨by simp [same_but_user, drive_UserIn, World.log, reg_addr, h1, h2, h3], rfl⟩
      · apply ih
        · rfl
        · simp [same_but_user, drive_UserIn, World.log, reg_addr, h1, h2, h3]

/-- The shape of slf_fpga_wait_ioctl once the request has been copied in and
the instance pointer is valid: the outcome is decided by the wait loop. -/
theorem wait_ioctl_of_loop (current : Nat) (i : Fin SLF_FPGA_DEVICE_MAX) (raw : Nat)
    (obs : List Obs) (w : World) (hcopy : (copy_from_user w.user raw 3).1 = 0) :
    slf_fpga_wait_ioctl current (some i) raw obs w =
      match wait_loop i obs (user_wait_s w.user raw) (wait_armed current i raw w) with
      | (none, w3) => .blocked w3
      | (some (rc, arg), w3) =>
        if rc < 0 then
          .returned rc (remove_wait_queue i current (w3.log (.set_current_state .TASK_RUNNING)))
        else if (copy_to_user w3.user raw arg.toWords).1 ≠ 0 then
          .returned (-EFAULT)
            (({ remove_wait_queue i current (w3.log (.set_current_state .TASK_RUNNING)) with
              user := (copy_to_user w3.user raw arg.toWords).2 }).log
                (.copy_to_user raw sizeof_slf_fpga_wait_s))
        else
          .returned 0
            (({ remove_wait_queue i current (w3.log (.set_current_state .TASK_RUNNING)) with
              user := (copy_to_user w3.user raw arg.toWords).2 }).log
                (.copy_to_user raw sizeof_slf_fpga_wait_s)) := by
  unfold slf_fpga_wait_ioctl
  simp only [hcopy, ne_eq, not_true_eq_false, if_false, copy_from_user_wait_s w.user raw hcopy]
  rfl

/-- Two calls of slf_fpga_wait_ioctl whose requests agree on user_in_exp, run
from the same registers against the same observations, end alike. -/
theorem wait_ioctl_user_congr (current : Nat) (i : Fin SLF_FPGA_DEVICE_MAX) (raw : Nat)
    (obs : List Obs) (w : World) (u1 u2 : UserMem)
    (hr : u1.readable = u2.readable) (hw : u1.writable = u2.writable)
    (hexp : (user_wait_s u1 raw).user_in_exp = (user_wait_s u2 raw).user_in_exp) :
    (slf_fpga_wait_ioctl current (some i) raw obs { w with user := u1 }).rc? =
      (slf_fpga_wait_ioctl current (some i) raw obs { w with user := u2 }).rc? ∧
    (slf_fpga_wait_ioctl current (some i) raw obs { w with user := u1 }).isBlocked =
      (slf_fpga_wait_ioctl current (some i) raw obs { w with user := u2 }).isBlocked ∧
    same_but_user
      ((slf_fpga_wait_ioctl current (some i) raw obs { w with user := u1 }).finalWorld w)
      ((slf_fpga_wait_ioctl current (some i) raw obs { w with user := u2 }).finalWorld w) ∧
    ((slf_fpga_wait_ioctl current (some i) raw obs { w with user := u1 }).rc? = some 0 →
      (user_wait_s ((slf_fpga_wait_ioctl current (some i) raw obs
          { w with user := u1 }).finalWorld w).user raw).user_in_value =
        (user_wait_s ((slf_fpga_wait_ioctl current (some i) raw obs
          { w with user := u2 }).finalWorld w).user raw).user_in_value ∧
      (user_wait_s ((slf_fpga_wait_ioctl current (some i) raw obs
          { w with user := u1 }).finalWorld w).user raw).timeout_ms =
        (user_wait_s u1 raw).timeout_ms ∧
      (user_wait_s ((slf_fpga_wait_ioctl current (some i) raw obs
          { w with user := u2 }).finalWorld w).user raw).timeout_ms =
        (user_wait_s u2 raw).timeout_ms) := by
  have hc := copy_from_user_fst_congr u1 u2 hr 3 raw
  by_cases hcopy : (copy_from_user u1 raw 3).1 = 0
  · have hcopy2 : (copy_from_user u2 raw 3).1 = 0 := by rw [← hc]; exact hcopy
    rw [wait_ioctl_of_loop current i raw obs { w with user := u1 } hcopy,
      wait_ioctl_of_loop current i raw obs { w with user := u2 } hcopy2]
    have harmed : same_but_user (wait_armed current i raw { w with user := u1 })
        (wait_armed current i raw { w with user := u2 }) := by
      simp [same_but_user, wait_armed, add_wait_queue, slf_fpga_write32, World.log]
    obtain ⟨hs, hm⟩ := wait_loop_congr i obs (user_wait_s u1 raw) (user_wait_s u2 raw)
      _ _ hexp harmed
    have hu1 := wait_loop_user i obs (user_wait_s u1 raw)
      (wait_armed current i raw { w with user := u1 })
    have hu2 := wait_loop_user i obs (user_wait_s u2 raw)
      (wait_armed current i raw { w with user := u2 })
    have hx1 := wait_loop_exit i obs (user_wait_s u1 raw)
      (wait_armed current i raw { w with user := u1 })
    have hx2 := wait_loop_exit i obs (user_wait_s u2 raw)
      (wait_armed current i raw { w with user := u2 })
    simp only at hs hm hu1 hu2 hx1 hx2 ⊢
    rcases h1 : wait_loop i obs (user_wait_s u1 raw)
      (wait_armed current i raw { w with user := u1 }) with ⟨res1, w31⟩
    rcases h2 : wait_loop i obs (user_wait_s u2 raw)
      (wait_armed current i raw { w with user := u2 }) with ⟨res2, w32⟩
    rw [h1] at hs hm hu1 hx1
    rw [h2] at hs hm hu2 hx2
    simp only at hs hm hu1 hu2 hx1 hx2
    have hu1b : w31.user = u1 := by
      rw [hu1]; simp [wait_armed, add_wait_queue, slf_fpga_write32, World.log]
    have hu2b : w32.user = u2 := by
      rw [hu2]; simp [wait_armed, add_wait_queue, slf_fpga_write32, World.log]
    cases res1 with
    | none =>
      cases res2 with
      | none => exact ⟨rfl, rfl, hs, by simp [Outcome.rc?]⟩
      | some p2 => simp at hm
    | some p1 =>
      cases res2 with
      | none => simp at hm
      | some p2 =>
        obtain ⟨rc1, a1⟩ := p1
        obtain ⟨rc2, a2⟩ := p2
        simp only [Option.map_some', Option.some.injEq, Prod.mk.injEq] at hm
        obtain ⟨hrc, hval⟩ := hm
        subst hrc
        obtain ⟨s1, s2, s3⟩ := hs
        have e1 := (hx1 rc1 a1 rfl).2.1
        have e2 := (hx2 rc1 a2 rfl).2.1
        simp only
        by_cases hneg : rc1 < 0
        · simp only [hneg, if_true, Outcome.rc?, Outcome.isBlocked, Outcome.finalWorld]
          refine ⟨trivial, trivial, ?_, ?_⟩
          · simp [same_but_user, remove_wait_queue, World.log, s1, s2, s3]
          · intro h0
            simp only [Option.some.injEq] at h0
            omega
        · have hlen : a1.toWords.length = a2.toWords.length := rfl
          have hcw := copy_to_user_fst_congr a1.toWords a2.toWords w31.user w32.user raw
            (by rw [hu1b, hu2b]; exact hw) hlen
          simp only [hneg, if_false]
          by_cases hto : (copy_to_user w31.user raw a1.toWords).1 = 0
          · have hto2 : (copy_to_user w32.user raw a2.toWords).1 = 0 := by rw [← hcw]; exact hto
            simp only [hto, hto2, ne_eq, not_true_eq_false, if_false, Outcome.rc?,
              Outcome.isBlocked, Outcome.finalWorld]
            have hb1 := copy_to_user_wait_s w31.user raw _ _ _ hto
            have hb2 := copy_to_user_wait_s w32.user raw _ _ _ hto2
            refine ⟨trivial, trivial, ?_, ?_⟩
            · simp [same_but_user, remove_wait_queue, World.log, s1, s2, s3]
            · intro _
              simp only [World.log]
              rw [show a1.toWords = [a1.user_in_value, a1.user_in_exp, a1.timeout_ms] from rfl,
                show a2.toWords = [a2.user_in_value, a2.user_in_exp, a2.timeout_ms] from rfl,
                hb1, hb2]
              exact ⟨hval, e1, e2⟩
          · have hto2 : ¬ (copy_to_user w32.user raw a2.toWords).1 = 0 := by
              rw [← hcw]; exact hto
            simp only [hto, hto2, ne_eq, not_false_eq_true, if_true, Outcome.rc?,
              Outcome.isBlocked, Outcome.finalWorld]
            refine ⟨trivial, trivial, ?_, ?_⟩
            · simp [same_but_user, remove_wait_queue, World.log, s1, s2, s3]
            · intro h0
              simp [EFAULT] at h0
  · have hcopy2 : ¬ (copy_from_user u2 raw 3).1 = 0 := by rw [← hc]; exact hcopy
    simp [slf_fpga_wait_ioctl, hcopy, hcopy2, Outcome.rc?, Outcome.isBlocked,
      Outcome.finalWorld, same_but_user, World.log, EFAULT]


/-- The wait loop writes no register: its events hold no write, and the only
address of I/O space whose value can differ afterwards is the live UserIn. -/
theorem wait_loop_frame (xsp : Fin SLF_FPGA_DEVICE_MAX) (obs : List Obs) :
    ∀ (arg : slf_fpga_wait_s) (w : World),
      (∃ evs, (wait_loop xsp obs arg w).2.trace = w.trace ++ evs ∧ iowrites evs = []) ∧
      ∀ a, a ≠ reg_addr w xsp .ADDR_UserIn → (wait_loop xsp obs arg w).2.iomem a = w.iomem a := by
  induction obs with
  | nil => intro arg w; exact ⟨⟨[], by simp [wait_loop], rfl⟩, fun _ _ => rfl⟩
  | cons o rest ih =>
    intro arg w
    simp only [wait_loop, read32_drive_UserIn]
    have hstep : ∀ a, a ≠ reg_addr w xsp .ADDR_UserIn →
        (drive_UserIn xsp o.user_in
          (w.log (.set_current_state .TASK_INTERRUPTIBLE))).iomem a = w.iomem a := by
      intro a ha
      simp only [drive_UserIn, World.log, reg_addr] at ha ⊢
      exact Function.update_noteq ha _ _
    split
    · refine ⟨⟨[.set_current_state .TASK_INTERRUPTIBLE,
        .ioread32 (reg_addr w xsp .ADDR_UserIn) o.user_in], ?_, by simp [iowrites]⟩, ?_⟩
      · simp [drive_UserIn, World.log, reg_addr]
      · intro a ha
        simpa [World.log] using hstep a ha
    · split
      · refine ⟨⟨[.set_current_state .TASK_INTERRUPTIBLE,
          .ioread32 (reg_addr w xsp .ADDR_UserIn) o.user_in], ?_, by simp [iowrites]⟩, ?_⟩
        · simp [drive_UserIn, World.log, reg_addr]
        · intro a ha
          simpa [World.log] using hstep a ha
      · obtain ⟨⟨evs, e1, e2⟩, e3⟩ := ih ⟨o.user_in, arg.user_in_exp, arg.timeout_ms⟩
          (((drive_UserIn xsp o.user_in (w.log (.set_current_state .TASK_INTERRUPTIBLE))).log
            (.ioread32 (reg_addr (w.log (.set_current_state .TASK_INTERRUPTIBLE)) xsp
              .ADDR_UserIn) o.user_in)).log .schedule)
        refine ⟨⟨[.set_current_state .TASK_INTERRUPTIBLE,
          .ioread32 (reg_addr w xsp .ADDR_UserIn) o.user_in, .schedule] ++ evs, ?_, ?_⟩, ?_⟩
        · rw [e1]
          simp [drive_UserIn, World.log, reg_addr]
        · rw [iowrites_append, e2]
          simp [iowrites]
        · intro a ha
          rw [e3 a (by simpa [drive_UserIn, World.log, reg_addr] using ha)]
          simpa [World.log] using hstep a ha

/-- What a return of slf_fpga_wait_ioctl past the copy-in adds to the world the
wait loop ended in: the registers are those of the loop's end, the wait entry
is removed from the queue, the further events hold no register access, and the
result code is 0, -ERESTART or -EFAULT. -/
theorem wait_ioctl_returned_loop (current : Nat) (i : Fin SLF_FPGA_DEVICE_MAX) (raw : Nat)
    (obs : List Obs) (w : World) (rc : Int) (w2 : World)
    (hcopy : (copy_from_user w.user raw 3).1 = 0)
    (h : slf_fpga_wait_ioctl current (some i) raw obs w = .returned rc w2) :
    w2.iomem =
      (wait_loop i obs (user_wait_s w.user raw) (wait_armed current i raw w)).2.iomem ∧
    w2.slf_instance_table =
      (remove_wait_queue i current
        (wait_loop i obs (user_wait_s w.user raw)
          (wait_armed current i raw w)).2).slf_instance_table ∧
    (∃ tail, w2.trace =
        (wait_loop i obs (user_wait_s w.user raw) (wait_armed current i raw w)).2.trace ++ tail ∧
      iowrites tail = [] ∧ ioreads tail = []) ∧
    (rc = 0 ∨ rc = -ERESTART ∨ rc = -EFAULT) := by
  rw [wait_ioctl_of_loop current i raw obs w hcopy] at h
  have hx := wait_loop_exit i obs (user_wait_s w.user raw) (wait_armed current i raw w)
  rcases hl : wait_loop i obs (user_wait_s w.user raw) (wait_armed current i raw w)
    with ⟨res, w3⟩
  rw [hl] at h hx
  simp only at hx ⊢
  cases res with
  | none => simp at h
  | some p =>
    obtain ⟨rc1, arg2⟩ := p
    have e3 := (hx rc1 arg2 rfl).2.2.1
    simp only at h
    split at h
    · rename_i hneg
      simp only [Outcome.returned.injEq] at h
      obtain ⟨h1, h2⟩ := h
      subst h1 h2
      refine ⟨rfl, rfl, ⟨[.set_current_state .TASK_RUNNING, .remove_wait_queue current],
        by simp [remove_wait_queue, World.log], by simp [iowrites], by simp [ioreads]⟩, ?_⟩
      rcases e3 with ⟨e3, _⟩ | ⟨e3, _⟩
      · exact Or.inl e3
      · exact Or.inr (Or.inl e3)
    · split at h
      · simp only [Outcome.returned.injEq] at h
        obtain ⟨h1, h2⟩ := h
        subst h1 h2
        exact ⟨rfl, rfl, ⟨[.set_current_state .TASK_RUNNING, .remove_wait_queue current,
          .copy_to_user raw sizeof_slf_fpga_wait_s],
          by simp [remove_wait_queue, World.log], by simp [iowrites], by simp [ioreads]⟩,
          Or.inr (Or.inr rfl)⟩
      · simp only [Outcome.returned.injEq] at h
        obtain ⟨h1, h2⟩ := h
        subst h1 h2
        exact ⟨rfl, rfl, ⟨[.set_current_state .TASK_RUNNING, .remove_wait_queue current,
          .copy_to_user raw sizeof_slf_fpga_wait_s],
          by simp [remove_wait_queue, World.log], by simp [iowrites], by simp [ioreads]⟩,
          Or.inl rfl⟩

/-- Registering a wait entry and removing it again leaves the table as it was. -/
theorem remove_add_wait_queue_table (i : Fin SLF_FPGA_DEVICE_MAX) (task : Nat)
    (t : Fin SLF_FPGA_DEVICE_MAX → slf_fpga_instance) :
    Function.update
      (Function.update t i { t i with userin_sync := task :: (t i).userin_sync }) i
      { base := (t i).base, userin_sync := (task :: (t i).userin_sync).erase task } = t := by
  simp [Function.update_idem]

/-- The world at the entry of the wait loop, spelled out. -/
theorem wait_armed_facts (current : Nat) (i : Fin SLF_FPGA_DEVICE_MAX) (raw : Nat) (w : World) :
    (wait_armed current i raw w).trace = w.trace ++
      [.copy_from_user raw sizeof_slf_fpga_wait_s,
       .iowrite32 0xff (reg_addr w i .ADDR_UserInIEN), .add_wait_queue current] ∧
    (wait_armed current i raw w).iomem =
      Function.update w.iomem (reg_addr w i .ADDR_UserInIEN) 0xff ∧
    (∀ r, reg_addr (wait_armed current i raw w) i r = reg_addr w i r) := by
  refine ⟨?_, ?_, ?_⟩
  · simp [wait_armed, add_wait_queue, slf_fpga_write32, World.log, reg_addr]
  · simp [wait_armed, add_wait_queue, slf_fpga_write32, World.log, reg_addr]
  · intro r
    simp [wait_armed, add_wait_queue, slf_fpga_write32, World.log, reg_addr]

/-- The registers and events at the end of a call of slf_fpga_wait_ioctl that
got past the copy-in, whether it returned or is still suspended. -/
theorem wait_ioctl_final_registers (current : Nat) (i : Fin SLF_FPGA_DEVICE_MAX) (raw : Nat)
    (obs : List Obs) (w w2 : World)
    (hcopy : (copy_from_user w.user raw 3).1 = 0)
    (h : (∃ rc, slf_fpga_wait_ioctl current (some i) raw obs w = .returned rc w2) ∨
      slf_fpga_wait_ioctl current (some i) raw obs w = .blocked w2) :
    (w2.slf_instance_table i).base = (w.slf_instance_table i).base ∧
    (∃ evs, w2.trace = w.trace ++
        [.copy_from_user raw sizeof_slf_fpga_wait_s,
         .iowrite32 0xff (reg_addr w i .ADDR_UserInIEN)] ++ evs ∧ iowrites evs = []) ∧
    w2.iomem (reg_addr w i .ADDR_UserInIEN) = 0xff ∧
    (∀ a, a ≠ reg_addr w i .ADDR_UserInIEN → a ≠ reg_addr w i .ADDR_UserIn →
      w2.iomem a = w.iomem a) := by
  obtain ⟨a1, a2, a3⟩ := wait_armed_facts current i raw w
  obtain ⟨⟨evs, f1, f2⟩, f3⟩ :=
    wait_loop_frame i obs (user_wait_s w.user raw) (wait_armed current i raw w)
  have ft := wait_loop_table i obs (user_wait_s w.user raw) (wait_armed current i raw w)
  have hbase : ((wait_armed current i raw w).slf_instance_table i).base =
      (w.slf_instance_table i).base := by
    simp [wait_armed, add_wait_queue, slf_fpga_write32, World.log]
  have hne : reg_addr w i .ADDR_UserInIEN ≠ reg_addr w i .ADDR_UserIn := by
    simp [reg_addr, slf_fpga_addr_t.val]
  rw [a3] at f3
  have hien : (wait_loop i obs (user_wait_s w.user raw)
      (wait_armed current i raw w)).2.iomem (reg_addr w i .ADDR_UserInIEN) = 0xff := by
    rw [f3 _ hne, a2]
    exact Function.update_same _ _ _
  have hframe : ∀ a, a ≠ reg_addr w i .ADDR_UserInIEN → a ≠ reg_addr w i .ADDR_UserIn →
      (wait_loop i obs (user_wait_s w.user raw)
        (wait_armed current i raw w)).2.iomem a = w.iomem a := by
    intro a h1 h2
    rw [f3 a h2, a2]
    exact Function.update_noteq h1 _ _
  rcases h with ⟨rc, h⟩ | h
  · obtain ⟨g1, g2, ⟨tail, g3, g4, _⟩, _⟩ :=
      wait_ioctl_returned_loop current i raw obs w rc w2 hcopy h
    refine ⟨?_, ⟨[.add_wait_queue current] ++ evs ++ tail, ?_, ?_⟩, ?_, ?_⟩
    · rw [g2]
      simp [remove_wait_queue, World.log, ft, hbase]
    · rw [g3, f1, a1]
      simp
    · rw [iowrites_append, iowrites_append, f2, g4]
      simp [iowrites]
    · rw [g1]; exact hien
    · intro a h1 h2
      rw [g1]; exact hframe a h1 h2
  · rw [wait_ioctl_of_loop current i raw obs w hcopy] at h
    rcases hl : wait_loop i obs (user_wait_s w.user raw) (wait_armed current i raw w)
      with ⟨res, w3⟩
    rw [hl] at h f1 ft hien hframe
    simp only at f1 ft hien hframe
    cases res with
    | some p =>
      obtain ⟨rc1, arg2⟩ := p
      simp only at h
      split at h
      · simp at h
      · split at h <;> simp at h
    | none =>
      simp only [Outcome.blocked.injEq] at h
      subst h
      refine ⟨by rw [ft, hbase], ⟨[.add_wait_queue current] ++ evs, ?_, ?_⟩, hien, hframe⟩
      · rw [f1, a1]
        simp
      · rw [iowrites_append, f2]
        simp [iowrites]

/-! ## The claims -/

/-- C1: when slf_fpga_wait_ioctl returns 0, the user_in_value it has written
back to the caller differs from the user_in_exp that was passed in, it is the
value of the last register read of the call (a read of UserIn made by the wait
loop), and user_in_exp has been written back unchanged. -/
theorem wait_ioctl_success_value (current : Nat) (xsp : InstancePtr) (raw : Nat)
    (obs : List Obs) (w w2 : World)
    (h : slf_fpga_wait_ioctl current xsp raw obs w = .returned 0 w2) :
    (user_wait_s w2.user raw).user_in_value ≠ (user_wait_s w.user raw).user_in_exp ∧
    (user_wait_s w2.user raw).user_in_exp = (user_wait_s w.user raw).user_in_exp ∧
    ∃ i evs, xsp = some i ∧ w2.trace = w.trace ++ evs ∧
      last_ioread32 evs =
        some (reg_addr w i .ADDR_UserIn, (user_wait_s w2.user raw).user_in_value) := by
  unfold slf_fpga_wait_ioctl at h
  simp only at h
  split at h
  · simp [EFAULT] at h
  · rename_i hcopy
    have hcopy2 : (copy_from_user w.user raw 3).1 = 0 := by simpa using hcopy
    have harg := copy_from_user_wait_s w.user raw hcopy2
    cases xsp with
    | none => simp at h
    | some i =>
      simp only at h
      rw [harg] at h
      rcases hl : wait_loop i obs (user_wait_s w.user raw)
        (add_wait_queue i current (slf_fpga_write32 i .ADDR_UserInIEN 0xff
          (w.log (.copy_from_user raw sizeof_slf_fpga_wait_s)))) with ⟨res, w3⟩
      rw [hl] at h
      have hl1 := congrArg Prod.fst hl
      have hl2 := congrArg Prod.snd hl
      simp only at hl1 hl2
      cases res with
      | none => simp at h
      | some p =>
        obtain ⟨rc, arg2⟩ := p
        simp only at h
        obtain ⟨e1, e2, e3, evs, e4, e5⟩ := wait_loop_exit i obs _ _ rc arg2 hl1
        have hu := wait_loop_user i obs (user_wait_s w.user raw)
          (add_wait_queue i current (slf_fpga_write32 i .ADDR_UserInIEN 0xff
            (w.log (.copy_from_user raw sizeof_slf_fpga_wait_s))))
        rw [hl2] at e4 hu
        split at h
        · rename_i hneg
          simp only [Outcome.returned.injEq] at h
          omega
        · split at h
          · simp [EFAULT] at h
          · rename_i hrc hto
            simp only [Outcome.returned.injEq, true_and] at h
            have hto2 : (copy_to_user w3.user raw arg2.toWords).1 = 0 := by
              simpa [remove_wait_queue, World.log] using hto
            have hback := copy_to_user_wait_s w3.user raw _ _ _ hto2
            have hw2 : user_wait_s w2.user raw =
                ⟨arg2.user_in_value, arg2.user_in_exp, arg2.timeout_ms⟩ := by
              rw [← h, ← hback]
              simp [remove_wait_queue, World.log, slf_fpga_wait_s.toWords]
            have hval : arg2.user_in_value ≠ (user_wait_s w.user raw).user_in_exp := by
              rcases e3 with ⟨_, e3⟩ | ⟨e3, _⟩
              · exact e3
              · exfalso
                rw [e3] at hrc
                simp [ERESTART] at hrc
            refine ⟨by rw [hw2]; exact hval, by rw [hw2]; exact e1, i, ?_⟩
            refine ⟨[.copy_from_user raw sizeof_slf_fpga_wait_s,
              .iowrite32 0xff (reg_addr w i .ADDR_UserInIEN), .add_wait_queue current] ++ evs ++
              [.set_current_state .TASK_RUNNING, .remove_wait_queue current,
                .copy_to_user raw sizeof_slf_fpga_wait_s], rfl, ?_, ?_⟩
            · rw [← h]
              simp [remove_wait_queue, World.log, e4, add_wait_queue, slf_fpga_write32, reg_addr]
            · rw [last_ioread32_append_noread _ _ (by simp [ioreads])]
              rw [last_ioread32_append_some _ _ _ e5, hw2]
              simp [reg_addr, add_wait_queue, slf_fpga_write32, World.log]

/-- The witness of C1: a wait on the bound device that sees 0 and then 0x10
while expecting 0 returns 0 and writes back 0x10. -/
theorem wait_ioctl_success_value_witness :
    slf_fpga_wait_ioctl 7 (some slf_instance_table_ptr) 0x1000 [⟨0, false⟩, ⟨0x10, false⟩]
        bound_world = .returned 0 (demo_wait.finalWorld boot_world) ∧
      (user_wait_s (demo_wait.finalWorld boot_world).user 0x1000).user_in_value ≠
        (user_wait_s bound_world.user 0x1000).user_in_exp :=
  ⟨rfl, (wait_ioctl_success_value 7 (some slf_instance_table_ptr) 0x1000
    [⟨0, false⟩, ⟨0x10, false⟩] bound_world (demo_wait.finalWorld boot_world) rfl).1⟩

/-- C2: when, after any number of quiet iterations, a loop check reads a
UserIn value equal to user_in_exp while a signal is pending, slf_fpga_wait_ioctl
returns -ERESTART, which is neither 0 nor -EFAULT, and the caller's memory,
the three fields of the Wait Request among it, is what it was before the call. -/
theorem wait_ioctl_interrupted (current : Nat) (i : Fin SLF_FPGA_DEVICE_MAX) (raw : Nat)
    (pre post : List Obs) (o : Obs) (w : World)
    (hcopy : (copy_from_user w.user raw 3).1 = 0)
    (hpre : quiet (user_wait_s w.user raw).user_in_exp pre)
    (ho : o.user_in = (user_wait_s w.user raw).user_in_exp)
    (hsig : o.signal_pending = true) :
    ∃ w2, slf_fpga_wait_ioctl current (some i) raw (pre ++ o :: post) w =
        .returned (-ERESTART) w2 ∧
      w2.user = w.user ∧
      user_wait_s w2.user raw = user_wait_s w.user raw ∧
      -ERESTART ≠ 0 ∧ -ERESTART ≠ -EFAULT := by
  have hl := wait_loop_interrupted i o post hsig pre (user_wait_s w.user raw)
    (wait_armed current i raw w) hpre ho
  have hu := wait_loop_user i (pre ++ o :: post) (user_wait_s w.user raw)
    (wait_armed current i raw w)
  rw [wait_ioctl_of_loop current i raw _ w hcopy]
  rcases hw : wait_loop i (pre ++ o :: post) (user_wait_s w.user raw)
    (wait_armed current i raw w) with ⟨res, w3⟩
  rw [hw] at hl hu
  simp only at hl hu
  subst hl
  have hneg : -ERESTART < 0 := by decide
  simp only [hneg, if_true]
  refine ⟨_, rfl, ?_, ?_, by decide, by decide⟩
  · simp [remove_wait_queue, World.log, hu, wait_armed, add_wait_queue, slf_fpga_write32]
  · simp [remove_wait_queue, World.log, hu, wait_armed, add_wait_queue, slf_fpga_write32]

/-- The witness of C2: a wait on the bound device expecting 0 that reads 0
twice, the second time with a signal pending, returns -ERESTART. -/
theorem wait_ioctl_interrupted_witness :
    ∃ w2, slf_fpga_wait_ioctl 7 (some slf_instance_table_ptr) 0x1000
        ([⟨0, false⟩] ++ ⟨0, true⟩ :: [⟨5, false⟩]) bound_world = .returned (-ERESTART) w2 ∧
      w2.user = bound_world.user ∧
      user_wait_s w2.user 0x1000 = user_wait_s bound_world.user 0x1000 ∧
      -ERESTART ≠ 0 ∧ -ERESTART ≠ -EFAULT :=
  wait_ioctl_interrupted 7 slf_instance_table_ptr 0x1000 [⟨0, false⟩] [⟨5, false⟩] ⟨0, true⟩
    bound_world (by decide) (by unfold quiet; decide) rfl rfl

/-- C3: evaluation of the code where the claim fails. With the module loaded
and no device probed the base of table entry 0 is null, and so it is after
slf_fpga_remove; in both worlds slf_fpga_open of minor 0 returns 0, not
-ENODEV, and attaches the unbound instance to the file. -/
theorem open_unbound_instance_succeeds :
    (boot_world.slf_instance_table slf_instance_table_ptr).base = 0 ∧
    slf_fpga_open boot_world ⟨0⟩ ⟨none⟩ = (0, ⟨some slf_instance_table_ptr⟩) ∧
    (bound_world.slf_instance_table slf_instance_table_ptr).base = 0x40000000 ∧
    (removed_world.slf_instance_table slf_instance_table_ptr).base = 0 ∧
    slf_fpga_open removed_world ⟨0⟩ ⟨none⟩ = (0, ⟨some slf_instance_table_ptr⟩) := by
  refine ⟨by decide, by decide, by decide, by decide, by decide⟩

/-- C4: for every world and every file bound to an instance, slf_fpga_release
returns 0, UserInIEN of that instance then reads 0, the private data of the
file is null, the one register access made is the write of 0 to UserInIEN, and
every other address of I/O space, so every other register, keeps its value. -/
theorem release_disables_interrupts (w : World) (filp : file) (i : Fin SLF_FPGA_DEVICE_MAX)
    (h : file_get_private_data filp = some i) :
    ∃ w2 filp2, slf_fpga_release w filp = some (0, w2, filp2) ∧
      (slf_fpga_read32 i .ADDR_UserInIEN w2).1 = 0 ∧
      file_get_private_data filp2 = none ∧
      w2.trace = w.trace ++ [.iowrite32 0 (reg_addr w i .ADDR_UserInIEN)] ∧
      (∀ a, a ≠ reg_addr w i .ADDR_UserInIEN → w2.iomem a = w.iomem a) ∧
      (∀ r, r ≠ .ADDR_UserInIEN → (slf_fpga_read32 i r w2).1 = (slf_fpga_read32 i r w).1) ∧
      w2.slf_instance_table = w.slf_instance_table ∧ w2.user = w.user := by
  unfold slf_fpga_release
  rw [h]
  refine ⟨_, _, rfl, ?_, rfl, ?_, ?_, ?_, rfl, rfl⟩
  · simp [slf_fpga_read32, slf_fpga_write32, World.log]
  · simp [slf_fpga_write32, World.log, reg_addr]
  · intro a ha
    simp only [slf_fpga_write32, World.log, reg_addr] at ha ⊢
    exact Function.update_noteq ha _ _
  · intro r hr
    have hne : (w.slf_instance_table i).base + r.val ≠
        (w.slf_instance_table i).base + slf_fpga_addr_t.ADDR_UserInIEN.val := by
      intro hh
      exact hr (addr_val_injective _ _ (by omega))
    simp [slf_fpga_read32, slf_fpga_write32, World.log, Function.update_noteq hne]

/-- The witness of C4: a file opened on the bound device, released after a
wait has left UserInIEN at 0xff. -/
theorem release_disables_interrupts_witness :
    file_get_private_data ⟨some slf_instance_table_ptr⟩ = some slf_instance_table_ptr ∧
    (slf_fpga_read32 slf_instance_table_ptr .ADDR_UserInIEN (demo_wait.finalWorld boot_world)).1
      = 0xff ∧
    ∃ w2 filp2, slf_fpga_release (demo_wait.finalWorld boot_world)
        ⟨some slf_instance_table_ptr⟩ = some (0, w2, filp2) ∧
      (slf_fpga_read32 slf_instance_table_ptr .ADDR_UserInIEN w2).1 = 0 ∧
      file_get_private_data filp2 = none :=
  ⟨rfl, by decide,
    (release_disables_interrupts (demo_wait.finalWorld boot_world)
      ⟨some slf_instance_table_ptr⟩ slf_instance_table_ptr rfl).imp
      fun _ hw => hw.imp fun _ hf => ⟨hf.1, hf.2.1, hf.2.2.1⟩⟩

/-- C5: for every world and every instance, slf_fpga_isr returns IRQ_HANDLED;
afterwards UserInExp reads the UserIn value the handler read; its events are,
in this order, the read of UserIn, the write of that value to UserInExp and
the wake-up of the waiters on the queue; every register other than UserInExp
keeps its value. -/
theorem isr_rearms_then_wakes (irq : Int) (i : Fin SLF_FPGA_DEVICE_MAX) (w : World) :
    ∃ w2, slf_fpga_isr irq (some i) w = some (.IRQ_HANDLED, w2) ∧
      (slf_fpga_read32 i .ADDR_UserInExp w2).1 = (slf_fpga_read32 i .ADDR_UserIn w).1 ∧
      w2.trace = w.trace ++
        [.ioread32 (reg_addr w i .ADDR_UserIn) (slf_fpga_read32 i .ADDR_UserIn w).1,
         .iowrite32 (slf_fpga_read32 i .ADDR_UserIn w).1 (reg_addr w i .ADDR_UserInExp),
         .wake_up_interruptible (w.slf_instance_table i).userin_sync] ∧
      (∀ a, a ≠ reg_addr w i .ADDR_UserInExp → w2.iomem a = w.iomem a) ∧
      (∀ r, r ≠ .ADDR_UserInExp → (slf_fpga_read32 i r w2).1 = (slf_fpga_read32 i r w).1) ∧
      w2.slf_instance_table = w.slf_instance_table ∧ w2.user = w.user := by
  unfold slf_fpga_isr
  refine ⟨_, rfl, ?_, ?_, ?_, ?_, rfl, rfl⟩
  · simp [slf_fpga_read32, slf_fpga_write32, wake_up_interruptible, World.log]
  · simp [slf_fpga_read32, slf_fpga_write32, wake_up_interruptible, World.log, reg_addr]
  · intro a ha
    simp only [slf_fpga_read32, slf_fpga_write32, wake_up_interruptible, World.log,
      reg_addr] at ha ⊢
    exact Function.update_noteq ha _ _
  · intro r hr
    have hne : (w.slf_instance_table i).base + r.val ≠
        (w.slf_instance_table i).base + slf_fpga_addr_t.ADDR_UserInExp.val := by
      intro hh
      exact hr (addr_val_injective _ _ (by omega))
    simp [slf_fpga_read32, slf_fpga_write32, wake_up_interruptible, World.log,
      Function.update_noteq hne]

/-- C6: a command code that is none of SLF_FPGA_LEDS, SLF_FPGA_UserIn and
SLF_FPGA_WAIT makes slf_fpga_ioctl return -ENOTTY with the world untouched (no
event in the trace, registers and caller memory as before); each of the three
codes is dispatched to its own handler, and the three codes are pairwise
distinct. -/
theorem ioctl_unknown_command (current : Nat) (filp : file) (cmd raw : Nat) (obs : List Obs)
    (w : World) (h1 : cmd ≠ SLF_FPGA_LEDS) (h2 : cmd ≠ SLF_FPGA_UserIn)
    (h3 : cmd ≠ SLF_FPGA_WAIT) :
    slf_fpga_ioctl current filp cmd raw obs w = .returned (-ENOTTY) w ∧
    slf_fpga_ioctl current filp SLF_FPGA_LEDS raw obs w =
      slf_fpga_leds_ioctl (file_get_private_data filp) raw w ∧
    slf_fpga_ioctl current filp SLF_FPGA_UserIn raw obs w =
      slf_fpga_userin_ioctl (file_get_private_data filp) raw w ∧
    slf_fpga_ioctl current filp SLF_FPGA_WAIT raw obs w =
      slf_fpga_wait_ioctl current (file_get_private_data filp) raw obs w ∧
    SLF_FPGA_LEDS ≠ SLF_FPGA_UserIn ∧ SLF_FPGA_LEDS ≠ SLF_FPGA_WAIT ∧
    SLF_FPGA_UserIn ≠ SLF_FPGA_WAIT := by
  have d1 : SLF_FPGA_UserIn ≠ SLF_FPGA_LEDS := by decide
  have d2 : SLF_FPGA_WAIT ≠ SLF_FPGA_LEDS := by decide
  have d3 : SLF_FPGA_WAIT ≠ SLF_FPGA_UserIn := by decide
  refine ⟨?_, ?_, ?_, ?_, by decide, by decide, by decide⟩
  · simp [slf_fpga_ioctl, h1, h2, h3]
  · simp [slf_fpga_ioctl]
  · simp [slf_fpga_ioctl, d1]
  · simp [slf_fpga_ioctl, d2, d3]

/-- The witness of C6: command code 0 on a file of the bound device. -/
theorem ioctl_unknown_command_witness :
    (0 : Nat) ≠ SLF_FPGA_LEDS ∧ (0 : Nat) ≠ SLF_FPGA_UserIn ∧ (0 : Nat) ≠ SLF_FPGA_WAIT ∧
    slf_fpga_ioctl 7 ⟨some slf_instance_table_ptr⟩ 0 0x1000 [] bound_world =
      .returned (-ENOTTY) bound_world :=
  ⟨by decide, by decide, by decide,
    (ioctl_unknown_command 7 ⟨some slf_instance_table_ptr⟩ 0 0x1000 [] bound_world
      (by decide) (by decide) (by decide)).1⟩

/-- C8: once the request has been copied in, if each of the first n
observations shows UserIn equal to user_in_exp with no signal pending, then
after those n iterations slf_fpga_wait_ioctl has not returned: it has made n
reads, each followed by schedule, and is suspended. And however the
observations go on, a return with 0 takes a later observation whose UserIn
value differs from user_in_exp, the value then written back. -/
theorem wait_ioctl_no_spurious_return (current : Nat) (i : Fin SLF_FPGA_DEVICE_MAX)
    (raw : Nat) (pre : List Obs) (w : World)
    (hcopy : (copy_from_user w.user raw 3).1 = 0)
    (hpre : quiet (user_wait_s w.user raw).user_in_exp pre) :
    (∃ w2, slf_fpga_wait_ioctl current (some i) raw pre w = .blocked w2 ∧
      w2.trace = w.trace ++
        [.copy_from_user raw sizeof_slf_fpga_wait_s,
         .iowrite32 0xff (reg_addr w i .ADDR_UserInIEN), .add_wait_queue current] ++
        quiet_trace (reg_addr w i .ADDR_UserIn) pre ∧
      w2.user = w.user) ∧
    (∀ rest w2, slf_fpga_wait_ioctl current (some i) raw (pre ++ rest) w = .returned 0 w2 →
      ∃ o ∈ rest, o.user_in ≠ (user_wait_s w.user raw).user_in_exp ∧
        (user_wait_s w2.user raw).user_in_value = o.user_in) := by
  constructor
  · have hl := wait_loop_quiet i pre (user_wait_s w.user raw) (wait_armed current i raw w) hpre
    have ht := wait_loop_quiet_trace i pre (user_wait_s w.user raw)
      (wait_armed current i raw w) hpre
    have hu := wait_loop_user i pre (user_wait_s w.user raw) (wait_armed current i raw w)
    rw [wait_ioctl_of_loop current i raw _ w hcopy]
    rcases hw : wait_loop i pre (user_wait_s w.user raw) (wait_armed current i raw w)
      with ⟨res, w3⟩
    rw [hw] at hl ht hu
    simp only at hl ht hu
    subst hl
    refine ⟨w3, rfl, ?_, ?_⟩
    · rw [ht]
      simp [wait_armed, add_wait_queue, slf_fpga_write32, World.log, reg_addr]
    · rw [hu]
      simp [wait_armed, add_wait_queue, slf_fpga_write32, World.log]
  · intro rest w2 h
    rw [wait_ioctl_of_loop current i raw _ w hcopy] at h
    rcases hw : wait_loop i (pre ++ rest) (user_wait_s w.user raw)
      (wait_armed current i raw w) with ⟨res, w3⟩
    have hw1 := congrArg Prod.fst hw
    have hu := wait_loop_user i (pre ++ rest) (user_wait_s w.user raw)
      (wait_armed current i raw w)
    rw [hw] at h hu
    simp only at hw1 hu
    cases res with
    | none => simp at h
    | some p =>
      obtain ⟨rc, arg2⟩ := p
      simp only at h
      obtain ⟨pre2, o, post, e1, e2, e3, e4⟩ :=
        wait_loop_exit_obs i (pre ++ rest) _ _ rc arg2 hw1
      split at h
      · rename_i hneg
        simp only [Outcome.returned.injEq] at h
        omega
      · split at h
        · simp [EFAULT] at h
        · rename_i hrc hto
          simp only [Outcome.returned.injEq, true_and] at h
          have hto2 : (copy_to_user w3.user raw arg2.toWords).1 = 0 := by simpa using hto
          have hback := copy_to_user_wait_s w3.user raw _ _ _ hto2
          have hval : (user_wait_s w2.user raw).user_in_value = arg2.user_in_value := by
            rw [← h]
            simp only [World.log]
            rw [show arg2.toWords = [arg2.user_in_value, arg2.user_in_exp, arg2.timeout_ms]
              from rfl, hback]
          have hne : o.user_in ≠ (user_wait_s w.user raw).user_in_exp := by
            rcases e4 with ⟨_, e4⟩ | ⟨e4, _⟩
            · exact e4
            · exfalso
              rw [e4] at hrc
              simp [ERESTART] at hrc
          have hmem : o ∈ pre ++ rest := by rw [e1]; simp
          rcases List.mem_append.mp hmem with hm | hm
          · exact absurd (hpre o hm).1 hne
          · exact ⟨o, hm, hne, by rw [hval, e3]⟩

/-- The witness of C8: on the bound device with expected value 0, one quiet
observation leaves the wait suspended, and the return with 0 comes with the
later observation 0x10. -/
theorem wait_ioctl_no_spurious_return_witness :
    (copy_from_user bound_world.user 0x1000 3).1 = 0 ∧
    quiet (user_wait_s bound_world.user 0x1000).user_in_exp [⟨0, false⟩] ∧
    (∃ w2, slf_fpga_wait_ioctl 7 (some slf_instance_table_ptr) 0x1000 [⟨0, false⟩]
      bound_world = .blocked w2 ∧ w2.user = bound_world.user) ∧
    slf_fpga_wait_ioctl 7 (some slf_instance_table_ptr) 0x1000 ([⟨0, false⟩] ++ [⟨0x10, false⟩])
      bound_world = .returned 0 (demo_wait.finalWorld boot_world) ∧
    ∃ o ∈ [(⟨0x10, false⟩ : Obs)], o.user_in ≠ (user_wait_s bound_world.user 0x1000).user_in_exp ∧
      (user_wait_s (demo_wait.finalWorld boot_world).user 0x1000).user_in_value = o.user_in :=
  have hw := wait_ioctl_no_spurious_return 7 slf_instance_table_ptr 0x1000 [⟨0, false⟩]
    bound_world (by decide) (by unfold quiet; decide)
  ⟨by decide, by unfold quiet; decide, hw.1.imp (fun _ h2 => ⟨h2.1, h2.2.2⟩), rfl,
    hw.2 [⟨0x10, false⟩] (demo_wait.finalWorld boot_world) rfl⟩

/-- C9, the claim refuted where the interrupt request fails: the platform
refuses the interrupt line with -EBUSY, the probe logs it, still returns 0 and
leaves the instance bound to the mapped base. -/
theorem probe_irq_refused_still_binds :
    demo_device.irq_resource = some ⟨61⟩ ∧
    irq_refusing_platform.devm_request_irq 61 < 0 ∧
    (boot_world.slf_instance_table slf_instance_table_ptr).base = 0 ∧
    (slf_fpga_probe irq_refusing_platform demo_device boot_world).1 = 0 ∧
    ((slf_fpga_probe irq_refusing_platform demo_device boot_world).2.2.slf_instance_table
      slf_instance_table_ptr).base = 0x40000000 ∧
    Event.printk .irq_request_failed ∈
      (slf_fpga_probe irq_refusing_platform demo_device boot_world).2.2.trace := by
  refine ⟨by decide, by decide, by decide, by decide, by decide, by decide⟩

/-- C9 as amended: on a table entry that is not bound yet, a probe whose
register region is missing or cannot be mapped returns a negative result,
leaves the base null and does not set the driver data of the device; and a
probe whose region is mapped returns 0 with the base set to the mapping and
the driver data pointing at the instance, whatever the interrupt request
answers. -/
theorem probe_resource_fault (pf : Platform) (dev : platform_device) (w : World)
    (hunbound : (w.slf_instance_table slf_instance_table_ptr).base = 0) :
    ((dev.mem_resource = none ∨
        ∃ res, dev.mem_resource = some res ∧ IS_ERR (pf.devm_ioremap_resource res) = true) →
      (slf_fpga_probe pf dev w).1 < 0 ∧
      ((slf_fpga_probe pf dev w).2.2.slf_instance_table slf_instance_table_ptr).base = 0 ∧
      (slf_fpga_probe pf dev w).2.1 = dev) ∧
    (∀ res, dev.mem_resource = some res → IS_ERR (pf.devm_ioremap_resource res) = false →
      (slf_fpga_probe pf dev w).1 = 0 ∧
      ((slf_fpga_probe pf dev w).2.2.slf_instance_table slf_instance_table_ptr).base =
        pf.devm_ioremap_resource res ∧
      platform_get_drvdata (slf_fpga_probe pf dev w).2.1 = some slf_instance_table_ptr) := by
  constructor
  · rintro (hnone | ⟨res, hres, herr⟩)
    · simp [slf_fpga_probe, hunbound, hnone, ENODEV, set_base, init_waitqueue_head, World.log]
    · have hlt : pf.devm_ioremap_resource res < 0 := by
        simp only [IS_ERR, decide_eq_true_eq] at herr
        exact herr.2
      simp [slf_fpga_probe, hunbound, hres, herr, set_base, init_waitqueue_head, World.log,
        PTR_ERR, hlt]
  · intro res hres hok
    cases hirq : dev.irq_resource with
    | none =>
      simp [slf_fpga_probe, hunbound, hres, hok, hirq, set_base, init_waitqueue_head, World.log,
        slf_fpga_write32, slf_fpga_read32, platform_set_drvdata, platform_get_drvdata]
    | some r =>
      by_cases hrc : pf.devm_request_irq r.start < 0
      · simp [slf_fpga_probe, hunbound, hres, hok, hirq, hrc, set_base, init_waitqueue_head,
          World.log, slf_fpga_write32, slf_fpga_read32, platform_set_drvdata,
          platform_get_drvdata]
      · simp [slf_fpga_probe, hunbound, hres, hok, hirq, hrc, set_base, init_waitqueue_head,
          World.log, slf_fpga_write32, slf_fpga_read32, platform_set_drvdata,
          platform_get_drvdata]

/-- The witness of C9 as amended: on the freshly loaded module, the probe of a
device whose region cannot be mapped (the mapping answers -ENOMEM) returns a
negative result and binds nothing. -/
theorem probe_resource_fault_witness :
    (boot_world.slf_instance_table slf_instance_table_ptr).base = 0 ∧
    demo_device.mem_resource = some ⟨0x40000000⟩ ∧
    IS_ERR (map_failing_platform.devm_ioremap_resource ⟨0x40000000⟩) = true ∧
    (slf_fpga_probe map_failing_platform demo_device boot_world).1 < 0 ∧
    ((slf_fpga_probe map_failing_platform demo_device boot_world).2.2.slf_instance_table
      slf_instance_table_ptr).base = 0 ∧
    (slf_fpga_probe map_failing_platform demo_device boot_world).2.1 = demo_device :=
  ⟨by decide, rfl, by decide,
    (probe_resource_fault map_failing_platform demo_device boot_world (by decide)).1
      (Or.inr ⟨⟨0x40000000⟩, rfl, by decide⟩)⟩

/-- C10: two calls of slf_fpga_wait_ioctl whose requests agree on user_in_exp
and may differ in timeout_ms and in the incoming user_in_value, run from the
same registers against the same observations, end alike: the same result code
(or both still suspended), the same events and so the same number of register
reads, one per loop iteration, and the same registers; when they return 0 they
have written back the same user_in_value and each its own timeout_ms. -/
theorem wait_ioctl_ignores_timeout (current : Nat) (i : Fin SLF_FPGA_DEVICE_MAX) (raw : Nat)
    (obs : List Obs) (w : World) (u1 u2 : UserMem)
    (hr : u1.readable = u2.readable) (hw : u1.writable = u2.writable)
    (hexp : (user_wait_s u1 raw).user_in_exp = (user_wait_s u2 raw).user_in_exp) :
    (slf_fpga_wait_ioctl current (some i) raw obs { w with user := u1 }).rc? =
      (slf_fpga_wait_ioctl current (some i) raw obs { w with user := u2 }).rc? ∧
    (slf_fpga_wait_ioctl current (some i) raw obs { w with user := u1 }).isBlocked =
      (slf_fpga_wait_ioctl current (some i) raw obs { w with user := u2 }).isBlocked ∧
    same_but_user
      ((slf_fpga_wait_ioctl current (some i) raw obs { w with user := u1 }).finalWorld w)
      ((slf_fpga_wait_ioctl current (some i) raw obs { w with user := u2 }).finalWorld w) ∧
    (ioreads ((slf_fpga_wait_ioctl current (some i) raw obs
        { w with user := u1 }).finalWorld w).trace).length =
      (ioreads ((slf_fpga_wait_ioctl current (some i) raw obs
        { w with user := u2 }).finalWorld w).trace).length ∧
    ((slf_fpga_wait_ioctl current (some i) raw obs { w with user := u1 }).rc? = some 0 →
      (user_wait_s ((slf_fpga_wait_ioctl current (some i) raw obs
          { w with user := u1 }).finalWorld w).user raw).user_in_value =
        (user_wait_s ((slf_fpga_wait_ioctl current (some i) raw obs
          { w with user := u2 }).finalWorld w).user raw).user_in_value ∧
      (user_wait_s ((slf_fpga_wait_ioctl current (some i) raw obs
          { w with user := u1 }).finalWorld w).user raw).timeout_ms =
        (user_wait_s u1 raw).timeout_ms ∧
      (user_wait_s ((slf_fpga_wait_ioctl current (some i) raw obs
          { w with user := u2 }).finalWorld w).user raw).timeout_ms =
        (user_wait_s u2 raw).timeout_ms) := by
  obtain ⟨h1, h2, h3, h4⟩ := wait_ioctl_user_congr current i raw obs w u1 u2 hr hw hexp
  exact ⟨h1, h2, h3, by rw [h3.2.2], h4⟩

/-- The witness of C10: on the bound device, a request with timeout 0 and one
with timeout 500 ms and another incoming value, both expecting 0, seeing 0 and
then 0x10, return the same result code. -/
theorem wait_ioctl_ignores_timeout_witness :
    bound_world.user.readable = demo_user_timeout.readable ∧
    bound_world.user.writable = demo_user_timeout.writable ∧
    (user_wait_s bound_world.user 0x1000).user_in_exp =
      (user_wait_s demo_user_timeout 0x1000).user_in_exp ∧
    (user_wait_s bound_world.user 0x1000).timeout_ms = 0 ∧
    (user_wait_s demo_user_timeout 0x1000).timeout_ms = 500 ∧
    (slf_fpga_wait_ioctl 7 (some slf_instance_table_ptr) 0x1000 [⟨0, false⟩, ⟨0x10, false⟩]
        { bound_world with user := bound_world.user }).rc? =
      (slf_fpga_wait_ioctl 7 (some slf_instance_table_ptr) 0x1000 [⟨0, false⟩, ⟨0x10, false⟩]
        { bound_world with user := demo_user_timeout }).rc? :=
  ⟨rfl, rfl, rfl, rfl, rfl,
    (wait_ioctl_ignores_timeout 7 slf_instance_table_ptr 0x1000 [⟨0, false⟩, ⟨0x10, false⟩]
      bound_world bound_world.user demo_user_timeout rfl rfl rfl).1⟩

/-- C11: whenever slf_fpga_wait_ioctl returns, with 0, with -ERESTART or with
-EFAULT from either copy, the instance table, and so the wait queue of every
instance, is what it was before the call; and while the call is suspended in
the loop the wait entry of the calling task stands at the head of the queue it
found. -/
theorem wait_ioctl_deregisters (current : Nat) (xsp : InstancePtr) (raw : Nat)
    (obs : List Obs) (w : World) :
    (∀ rc w2, slf_fpga_wait_ioctl current xsp raw obs w = .returned rc w2 →
      w2.slf_instance_table = w.slf_instance_table ∧
      (∀ i, (w2.slf_instance_table i).userin_sync = (w.slf_instance_table i).userin_sync) ∧
      (rc = 0 ∨ rc = -ERESTART ∨ rc = -EFAULT)) ∧
    (∀ i w3, xsp = some i → slf_fpga_wait_ioctl current xsp raw obs w = .blocked w3 →
      (w3.slf_instance_table i).userin_sync =
        current :: (w.slf_instance_table i).userin_sync) := by
  constructor
  · intro rc w2 h
    have key : w2.slf_instance_table = w.slf_instance_table ∧
        (rc = 0 ∨ rc = -ERESTART ∨ rc = -EFAULT) := by
      by_cases hcopy : (copy_from_user w.user raw 3).1 = 0
      · cases xsp with
        | none => simp [slf_fpga_wait_ioctl, hcopy] at h
        | some i =>
          obtain ⟨_, h2, _, h4⟩ := wait_ioctl_returned_loop current i raw obs w rc w2 hcopy h
          refine ⟨?_, h4⟩
          have ht := wait_loop_table i obs (user_wait_s w.user raw) (wait_armed current i raw w)
          rw [h2]
          simp only [remove_wait_queue, World.log, ht]
          simp only [wait_armed, add_wait_queue, slf_fpga_write32, World.log,
            Function.update_same]
          exact remove_add_wait_queue_table i current w.slf_instance_table
      · simp only [slf_fpga_wait_ioctl, ne_eq, hcopy, not_false_eq_true, if_true,
          Outcome.returned.injEq] at h
        obtain ⟨h1, h2⟩ := h
        subst h1 h2
        exact ⟨rfl, Or.inr (Or.inr rfl)⟩
    exact ⟨key.1, fun i => by rw [key.1], key.2⟩
  · intro i w3 hx h
    subst hx
    by_cases hcopy : (copy_from_user w.user raw 3).1 = 0
    · rw [wait_ioctl_of_loop current i raw obs w hcopy] at h
      have ht := wait_loop_table i obs (user_wait_s w.user raw) (wait_armed current i raw w)
      rcases hl : wait_loop i obs (user_wait_s w.user raw) (wait_armed current i raw w)
        with ⟨res, w4⟩
      rw [hl] at h ht
      cases res with
      | none =>
        simp only [Outcome.blocked.injEq] at h
        subst h
        simp only at ht
        rw [ht]
        simp [wait_armed, add_wait_queue, slf_fpga_write32, World.log]
      | some p =>
        obtain ⟨rc1, arg2⟩ := p
        simp only at h
        split at h
        · simp at h
        · split at h <;> simp at h
    · simp [slf_fpga_wait_ioctl, hcopy] at h

/-- The witness of C11: on the bound device, whose queue is empty, the wait of
task 7 that returns 0 leaves the queue as it found it, and the same wait has
task 7 on the queue while it is suspended. -/
theorem wait_ioctl_deregisters_witness :
    slf_fpga_wait_ioctl 7 (some slf_instance_table_ptr) 0x1000 [⟨0, false⟩, ⟨0x10, false⟩]
      bound_world = .returned 0 (demo_wait.finalWorld boot_world) ∧
    (∀ i, ((demo_wait.finalWorld boot_world).slf_instance_table i).userin_sync =
      (bound_world.slf_instance_table i).userin_sync) ∧
    (bound_world.slf_instance_table slf_instance_table_ptr).userin_sync = [] ∧
    slf_fpga_wait_ioctl 7 (some slf_instance_table_ptr) 0x1000 [⟨0, false⟩]
      bound_world = .blocked (demo_wait_suspended.finalWorld boot_world) ∧
    ((demo_wait_suspended.finalWorld boot_world).slf_instance_table
      slf_instance_table_ptr).userin_sync =
        7 :: (bound_world.slf_instance_table slf_instance_table_ptr).userin_sync :=
  ⟨rfl,
    ((wait_ioctl_deregisters 7 (some slf_instance_table_ptr) 0x1000
      [⟨0, false⟩, ⟨0x10, false⟩] bound_world).1 0 (demo_wait.finalWorld boot_world) rfl).2.1,
    by decide, rfl,
    (wait_ioctl_deregisters 7 (some slf_instance_table_ptr) 0x1000 [⟨0, false⟩]
      bound_world).2 slf_instance_table_ptr (demo_wait_suspended.finalWorld boot_world) rfl rfl⟩

/-- C12: if the copy-in of the request fails, slf_fpga_wait_ioctl returns
-EFAULT with the registers untouched and no register access among its events.
Otherwise, whatever UserInIEN held, at every return (and also while the call
is suspended) the events of the call start with the copy-in and the write of
0xff to UserInIEN, ahead of every read, and hold no further register write;
UserInIEN reads 0xff, and the only other address of I/O space that can differ
from before is the live UserIn, which the input pins drive. -/
theorem wait_ioctl_arms_interrupts (current : Nat) (xsp : InstancePtr) (raw : Nat)
    (obs : List Obs) (w : World) :
    ((copy_from_user w.user raw 3).1 ≠ 0 →
      ∃ w2, slf_fpga_wait_ioctl current xsp raw obs w = .returned (-EFAULT) w2 ∧
        w2.iomem = w.iomem ∧
        w2.trace = w.trace ++ [.copy_from_user raw sizeof_slf_fpga_wait_s]) ∧
    (∀ i w2, xsp = some i → (copy_from_user w.user raw 3).1 = 0 →
      ((∃ rc, slf_fpga_wait_ioctl current xsp raw obs w = .returned rc w2) ∨
        slf_fpga_wait_ioctl current xsp raw obs w = .blocked w2) →
      (∃ evs, w2.trace = w.trace ++
          [.copy_from_user raw sizeof_slf_fpga_wait_s,
           .iowrite32 0xff (reg_addr w i .ADDR_UserInIEN)] ++ evs ∧ iowrites evs = []) ∧
      (slf_fpga_read32 i .ADDR_UserInIEN w2).1 = 0xff ∧
      (∀ a, a ≠ reg_addr w i .ADDR_UserInIEN → a ≠ reg_addr w i .ADDR_UserIn →
        w2.iomem a = w.iomem a)) := by
  constructor
  · intro hcopy
    refine ⟨w.log (.copy_from_user raw sizeof_slf_fpga_wait_s), ?_, rfl, rfl⟩
    simp [slf_fpga_wait_ioctl, hcopy]
  · intro i w2 hx hcopy h
    subst hx
    obtain ⟨h1, h2, h3, h4⟩ := wait_ioctl_final_registers current i raw obs w w2 hcopy h
    refine ⟨h2, ?_, h4⟩
    simp only [slf_fpga_read32, h1]
    exact h3

/-- The witness of C12: with an unreadable request the wait on the bound
device returns -EFAULT and leaves the registers alone; the wait that returns 0
leaves UserInIEN, which the probe had set to 0, reading 0xff. -/
theorem wait_ioctl_arms_interrupts_witness :
    (copy_from_user unreadable_world.user 0x1000 3).1 ≠ 0 ∧
    (∃ w2, slf_fpga_wait_ioctl 7 (some slf_instance_table_ptr) 0x1000 [⟨0x10, false⟩]
        unreadable_world = .returned (-EFAULT) w2 ∧ w2.iomem = unreadable_world.iomem) ∧
    (copy_from_user bound_world.user 0x1000 3).1 = 0 ∧
    slf_fpga_wait_ioctl 7 (some slf_instance_table_ptr) 0x1000 [⟨0, false⟩, ⟨0x10, false⟩]
      bound_world = .returned 0 (demo_wait.finalWorld boot_world) ∧
    (slf_fpga_read32 slf_instance_table_ptr .ADDR_UserInIEN bound_world).1 = 0 ∧
    (slf_fpga_read32 slf_instance_table_ptr .ADDR_UserInIEN
      (demo_wait.finalWorld boot_world)).1 = 0xff :=
  ⟨by decide,
    ((wait_ioctl_arms_interrupts 7 (some slf_instance_table_ptr) 0x1000 [⟨0x10, false⟩]
      unreadable_world).1 (by decide)).imp fun _ hw => ⟨hw.1, hw.2.1⟩,
    by decide, rfl, by decide,
    ((wait_ioctl_arms_interrupts 7 (some slf_instance_table_ptr) 0x1000
      [⟨0, false⟩, ⟨0x10, false⟩] bound_world).2 slf_instance_table_ptr
        (demo_wait.finalWorld boot_world) rfl (by decide) (Or.inl ⟨0, rfl⟩)).2.1⟩

end SlfFpga
